import Mathlib

/-!
# Help viewer: asynchronous resource loading (`Gui/HelpView.cpp`)

A shallow embedding of `Gui::DockWnd::TextBrowser` and its private data
`TextBrowserPrivate`: the pending-fetch registry `typeHash`, the current
document (`source`, `sourceData`), the three operations `setSource`,
`loadResource` and `onFinished`, and the calls they make on the Qt
collaborators (the network access manager `acc`, the `QTextBrowser` base
class, the document and the viewport).

Qt itself is not part of the repository.  Its objects are represented by the
values the code observes: a `QUrl` by its text, a `QByteArray` by its bytes, a
`QNetworkReply*` by its address, and the reply object by what `onFinished`
reads from it.
-/

namespace Gui.DockWnd

/-! ## Qt values -/

/-- A `QUrl`, represented by its text; `QUrl()` is the empty text. -/
abbrev QUrl := String

/-- A `QByteArray`, represented by its bytes. -/
abbrev QByteArray := List Nat

/-- A `QString`. -/
abbrev QString := String

/-- A `QNetworkReply*`: `none` is the null pointer, `some a` points to the reply
object at address `a`. -/
abbrev ReplyPtr := Option Nat

/-- The part of a reply object that `onFinished` reads through the pointer:
`request().url()`, `error()` (0 is `QNetworkReply::NoError`) and `readAll()`. -/
structure QNetworkReply where
  url : QUrl
  error : Nat
  readAll : QByteArray
deriving DecidableEq, Repr

/-- The value `QNetworkReply::NoError`. -/
def NoError : Nat := 0

/-- The value `QTextDocument::HtmlResource`. -/
def HtmlResource : Int := 1

/-- The value `QTextDocument::ImageResource`. -/
def ImageResource : Int := 2

/-- A `QVariant`, restricted to the alternatives `loadResource` and `onFinished`
construct: the default-constructed (invalid) variant, a byte array, a pixmap
given by its XPM source lines, and a string. -/
inductive QVariant where
  | invalid
  | byteArray (b : QByteArray)
  | pixmap (xpm : List String)
  | string (s : QString)
deriving DecidableEq, Repr

/-- The function `QVariant::isValid`: false exactly for the default-constructed variant. -/
def QVariant.isValid : QVariant → Bool
  | .invalid => false
  | _ => true

/-- The two `QUrl` member functions `setSource` calls.  They belong to Qt, so the
browser is parameterised by them. -/
structure QUrlOps where
  isRelative : QUrl → Bool
  resolved : QUrl → QUrl → QUrl

/-! ## `QHash<QNetworkReply *, int>` -/

/-- The hash `typeHash`, as an association list with at most one entry per key
after `insert`. -/
abbrev TypeHash := List (ReplyPtr × Int)

namespace QHash

/-- The function `QHash::contains`. -/
def contains (h : TypeHash) (k : ReplyPtr) : Bool :=
  h.any (fun e => e.1 == k)

/-- The function `QHash::value`: the value stored under `k`, or a default-constructed `int`. -/
def value (h : TypeHash) (k : ReplyPtr) : Int :=
  match h.find? (fun e => e.1 == k) with
  | some e => e.2
  | none => 0

/-- The function `QHash::remove`: removes every item stored under `k`. -/
def remove (h : TypeHash) (k : ReplyPtr) : TypeHash :=
  h.filter (fun e => e.1 != k)

/-- The function `QHash::insert`: an item already stored under `k` is replaced. -/
def insert (h : TypeHash) (k : ReplyPtr) (v : Int) : TypeHash :=
  (k, v) :: remove h k

end QHash

/-! ## State -/

/-- The class `TextBrowserPrivate`, without the tooltip and history-flag members
(`bw`, `fw`, `toolTipId`, `toolTip`), which none of the three operations touch.
The access manager `acc` is represented by the requests it has been given:
the address of the reply `get` returned and the requested URL, oldest first. -/
structure TextBrowserPrivate where
  acc : List (Nat × QUrl)
  source : QUrl
  sourceData : QByteArray
  typeHash : TypeHash
deriving DecidableEq, Repr

/-- A call the browser makes on the rendering side: `QTextBrowser::setSource(url)`
(display the document), `document()->addResource(type, url, data)` and
`viewport()->repaint()`. -/
inductive Call where
  | setSource (url : QUrl)
  | addResource (type : Int) (url : QUrl) (data : QVariant)
  | repaint
deriving DecidableEq, Repr

/-- A `TextBrowser`: its private data `d` and the calls it has made so far on the
`QTextBrowser` base class, the document and the viewport, oldest first. -/
structure TextBrowser where
  d : TextBrowserPrivate
  calls : List Call
deriving DecidableEq, Repr

/-- The constructor `TextBrowserPrivate()` and a browser that has made no call yet. -/
def TextBrowser.new : TextBrowser :=
  { d := { acc := [], source := "", sourceData := [], typeHash := [] }, calls := [] }

/-- The call `d->acc.get(QNetworkRequest(url))`, where `a` is the address of the
reply object the access manager returns (never null). -/
def TextBrowserPrivate.get (d : TextBrowserPrivate) (url : QUrl) (a : Nat) :
    TextBrowserPrivate :=
  { d with acc := d.acc ++ [(a, url)] }

/-! ## `TextBrowser::setSource` -/

/-- The local variable `dest` of `setSource` when the function reaches its last
statement.  The value of `dest.resolved(url)` is discarded by the source. -/
def TextBrowser.setSourceDest (q : QUrlOps) (tb : TextBrowser) (url : QUrl) : QUrl :=
  if q.isRelative url then tb.d.source else url

/-- The function `TextBrowser::setSource(const QUrl& url)`; `a` is the address of
the reply that `acc.get` returns.  The request is built from `url`, not from
`dest`. -/
def TextBrowser.setSource (_q : QUrlOps) (tb : TextBrowser) (url : QUrl) (a : Nat) :
    TextBrowser :=
  let d1 := tb.d.get url a
  { tb with d := { d1 with typeHash := QHash.insert d1.typeHash (some a) (-1) } }

/-! ## `TextBrowser::onFinished` -/

/-- The function `TextBrowser::onFinished(QNetworkReply *rp)`; `reply` is the
object `rp` points to (not read when `rp` is null).  The guard `FCDeleteLater`
only schedules the destruction of the reply object and is not part of the
browser state.  The requests that `QTextBrowser::setSource` makes back into
`loadResource` while it lays out the document are `loadResource` steps of
their own (see `loadResources`). -/
def TextBrowser.onFinished (tb : TextBrowser) (rp : ReplyPtr) (reply : QNetworkReply) :
    TextBrowser :=
  if !QHash.contains tb.d.typeHash rp then tb
  else
    let type := QHash.value tb.d.typeHash rp
    let tb1 : TextBrowser := { tb with d := { tb.d with typeHash := QHash.remove tb.d.typeHash rp } }
    if rp.isNone || reply.error != NoError then tb1
    else if type == -1 then
      { d := { tb1.d with source := reply.url, sourceData := reply.readAll },
        calls := tb1.calls ++ [Call.setSource reply.url] }
    else
      { tb1 with calls := tb1.calls ++
          [Call.addResource type reply.url (QVariant.byteArray reply.readAll), Call.repaint] }

/-! ## `QString::arg` and `tr` -/

/-- The function `QChar::digitValue` on the decimal digits. -/
def digitValue (c : Char) : Option Nat :=
  if c.isDigit then some (c.toNat - 48) else none

/-- The digits of a place marker: its number (one or two digits) and how many
characters they take. -/
def escapeDigits : List Char → Option (Nat × Nat)
  | [] => none
  | c :: cs =>
    match digitValue c with
    | none => none
    | some n =>
      match cs with
      | [] => some (n, 1)
      | c2 :: _ =>
        match digitValue c2 with
        | some m => some (10 * n + m, 2)
        | none => some (n, 1)

/-- The place marker that starts right after a percent sign, if any: `%n`,
`%nn` or `%Ln`.  Returns its number and its length without the percent sign. -/
def escapeAt : List Char → Option (Nat × Nat)
  | 'L' :: cs =>
    match escapeDigits cs with
    | some (n, k) => some (n, k + 1)
    | none => none
  | cs => escapeDigits cs

/-- The lowest place-marker number that occurs in the text. -/
def lowestEscape : List Char → Option Nat
  | [] => none
  | c :: cs =>
    if c = '%' then
      match escapeAt cs, lowestEscape cs with
      | some (n, _), some m => some (min n m)
      | some (n, _), none => some n
      | none, r => r
    else lowestEscape cs

/-- Replaces every place marker numbered `n` by `a`; the first argument counts
the characters of a replaced marker that are still to be skipped. -/
def replaceEscapes (n : Nat) (a : List Char) : Nat → List Char → List Char
  | _, [] => []
  | k + 1, _ :: cs => replaceEscapes n a k cs
  | 0, c :: cs =>
    if c = '%' then
      match escapeAt cs with
      | some (m, len) =>
        if m = n then a ++ replaceEscapes n a len cs else c :: replaceEscapes n a 0 cs
      | none => c :: replaceEscapes n a 0 cs
    else c :: replaceEscapes n a 0 cs

/-- The function `QString::arg(const QString&)`: every occurrence of the
lowest-numbered place marker is replaced by `a`; a text without a marker is
returned as it is. -/
def QString.arg (t a : QString) : QString :=
  match lowestEscape t.data with
  | none => t
  | some n => String.mk (replaceEscapes n a.data 0 t.data)

/-- The function `QObject::tr` with no translation installed: the source text. -/
def tr (s : QString) : QString := s

/-! ## `TextBrowser::loadResource` -/

/-- The array `empty_xpm` of `loadResource`. -/
def empty_xpm : List String :=
  [ "24 24 1 1",
    ". c #C0C0C0",
    "........................",
    "........................",
    "........................",
    "........................",
    "........................",
    "........................",
    "........................",
    "........................",
    "........................",
    "........................",
    "........................",
    "........................",
    "........................",
    "........................",
    "........................",
    "........................",
    "........................",
    "........................",
    "........................",
    "........................",
    "........................",
    "........................",
    "........................",
    "........................" ]

/-- The markup text passed to `QString::fromLatin1` in `loadResource`. -/
def errorPage : QString :=
  "<!DOCTYPE HTML PUBLIC \"-//W3C//DTD HTML 4.01//EN\">" ++
  "<html>" ++
  "<head>" ++
  "<meta http-equiv=\"Content-Type\" content=\"text/html; charset=utf-16\">" ++
  "<title>Error</title>" ++
  "</head>" ++
  "<body>" ++
  "<h1>Error</h1>" ++
  "<div><p><strong>%2</strong></p>" ++
  "</div></body>" ++
  "</html>"

/-- The message passed to `tr` in `loadResource`. -/
def errorMessage : QString :=
  "You tried to access the address %1 which is currently unavailable. " ++
  "Please make sure that the URL exists and try reloading the page."

/-- The function `TextBrowser::loadResource(int type, const QUrl& url)`; `a` is
the address of the reply that `acc.get` returns when a request is made.  The
result is the returned `QVariant` and the browser afterwards. -/
def TextBrowser.loadResource (tb : TextBrowser) (type : Int) (url : QUrl) (a : Nat) :
    QVariant × TextBrowser :=
  if url == tb.d.source then (QVariant.byteArray tb.d.sourceData, tb)
  else
    let d1 := tb.d.get url a
    let tb1 : TextBrowser := { tb with d := { d1 with typeHash := QHash.insert d1.typeHash (some a) type } }
    let data : QVariant :=
      if type == ImageResource then QVariant.pixmap empty_xpm
      else if type == HtmlResource then
        QVariant.string (QString.arg errorPage (QString.arg (tr errorMessage) url))
      else QVariant.invalid
    (data, tb1)

/-- A run of `loadResource` calls, as the rendering side makes them while it lays
out a document: each with its type, its URL and the address of the reply that
`acc.get` returns if a request is made. -/
def TextBrowser.loadResources (tb : TextBrowser) : List (Int × QUrl × Nat) → TextBrowser
  | [] => tb
  | (type, url, a) :: rest => (tb.loadResource type url a).2.loadResources rest

/-! ## Purpose tags -/

/-- The purpose of a pending fetch, as `onFinished` reads it from the `int`
stored in `typeHash`: `-1` is the primary document, any other value is the
resource type of an embedded resource. -/
inductive PurposeTag where
  | Source
  | Embedded (kind : Int)
deriving DecidableEq, Repr

/-- Decodes the `int` stored in `typeHash`. -/
def tagOf (t : Int) : PurposeTag :=
  if t == -1 then PurposeTag.Source else PurposeTag.Embedded t

/-! ## Reading XPM data -/

namespace Xpm

/-- A decoded picture: its size and the colour name of every pixel, row by row. -/
structure Image where
  width : Nat
  height : Nat
  pixels : List (List String)
deriving DecidableEq, Repr

/-- The words of a line, separated by blanks. -/
def words (cs : List Char) : List (List Char) :=
  (cs.foldr (fun c acc =>
    if c = ' ' then [] :: acc
    else match acc with
      | [] => [[c]]
      | w :: ws => (c :: w) :: ws) [[]]).filter (fun w => !w.isEmpty)

/-- A decimal number. -/
def number (w : List Char) : Option Nat :=
  if w.all Char.isDigit && !w.isEmpty then
    some (w.foldl (fun n c => 10 * n + (c.toNat - 48)) 0)
  else none

/-- All values of a list of optional values, if none is missing. -/
def allSome {α : Type} : List (Option α) → Option (List α)
  | [] => some []
  | none :: _ => none
  | some x :: xs =>
    match allSome xs with
    | some ys => some (x :: ys)
    | none => none

/-- A colour line: the pixel key of `cpp` characters, then `c` and the colour name. -/
def colour (cpp : Nat) (line : String) : Option (List Char × String) :=
  match words (line.data.drop cpp) with
  | [['c'], name] => some (line.data.take cpp, String.mk name)
  | _ => none

/-- The first `n` pixel keys of a row, `cpp` characters each. -/
def keys (cpp : Nat) : Nat → List Char → List (List Char)
  | 0, _ => []
  | n + 1, cs => cs.take cpp :: keys cpp n (cs.drop cpp)

/-- Decodes XPM source lines: the header `width height colours cpp`, the colour
lines, then one line per row. -/
def decode (xpm : List String) : Option Image :=
  match xpm with
  | [] => none
  | header :: rest =>
    match allSome ((words header.data).map number) with
    | some [w, h, n, cpp] =>
      match allSome ((rest.take n).map (colour cpp)) with
      | none => none
      | some table =>
        let rows := rest.drop n
        if rows.length = h ∧ rows.all (fun r => r.data.length == w * cpp) then
          match allSome (rows.map (fun r => allSome ((keys cpp w r.data).map table.lookup))) with
          | some px => some { width := w, height := h, pixels := px }
          | none => none
        else none
    | _ => none

end Xpm

/-! ## A reading of `QUrl` for examples -/

/-- An instance of the two `QUrl` functions, after the Qt documentation: a URL is
relative when it has no scheme, and a relative URL resolves against the base
up to its last slash.  Used for concrete examples only. -/
def qurl : QUrlOps where
  isRelative u := !u.data.contains ':'
  resolved base rel :=
    if !rel.data.contains ':' then
      String.mk ((base.data.reverse.dropWhile (fun c => c != '/')).reverse ++ rel.data)
    else rel

/-- The reply of a fetch for `url` that succeeded with the payload `bytes`. -/
def success (url : QUrl) (bytes : QByteArray) : QNetworkReply :=
  { url := url, error := NoError, readAll := bytes }

/-- The pair `CurrentDocument`: the members `source` and `sourceData`. -/
def TextBrowser.currentDocument (tb : TextBrowser) : QUrl × QByteArray :=
  (tb.d.source, tb.d.sourceData)

/-- The reply of a fetch for `url` that failed with `QNetworkReply::ContentNotFoundError`. -/
def notFound (url : QUrl) : QNetworkReply :=
  { url := url, error := 203, readAll := [] }

/-- A new browser that has been asked to navigate to `doc://home`; the fetch is pending. -/
def pendingHome : TextBrowser :=
  TextBrowser.new.setSource qurl "doc://home" 1

/-- The browser showing `doc://home` with the three bytes `<h>`. -/
def shownHome : TextBrowser :=
  pendingHome.onFinished (some 1) (success "doc://home" [60, 104, 62])

/-- The browser showing `doc://home` while the image `doc://logo.png` is being fetched. -/
def pendingLogo : TextBrowser :=
  (shownHome.loadResource ImageResource "doc://logo.png" 2).2

/-- A new browser that has been asked to navigate to `doc://missing`. -/
def pendingMissing : TextBrowser :=
  TextBrowser.new.setSource qurl "doc://missing" 1

/-- A browser showing `http://host/dir/a.html`. -/
def shownPage : TextBrowser :=
  { d := { acc := [], source := "http://host/dir/a.html", sourceData := [60, 97, 62], typeHash := [] },
    calls := [Call.setSource "http://host/dir/a.html"] }

/-! ## `TextBrowserPrivate::~TextBrowserPrivate` -/

/-- The keys stored in `typeHash`, in the order of the association list. -/
def QHash.keys (h : TypeHash) : List ReplyPtr :=
  h.map Prod.fst

/-- The representation invariant of a `QHash` filled through `insert`: one item
per key. -/
@[reducible] def QHash.keysUnique (h : TypeHash) : Prop :=
  (QHash.keys h).Nodup

/-- The value `QNetworkReply::OperationCanceledError`. -/
def OperationCanceledError : Nat := 5

/-- The call `abort()` on the reply at address `a`, which has not finished.  Qt
sets the error of the reply to `OperationCanceledError` and emits `finished`
before `abort()` returns; the constructor of `TextBrowser` has connected
`finished(QNetworkReply *)` of the access manager to `onFinished`, so
`onFinished` runs at once for this reply.  `content` is what the reply object
holds besides the error. -/
def TextBrowser.abort (tb : TextBrowser) (a : Nat) (content : QNetworkReply) : TextBrowser :=
  tb.onFinished (some a) { content with error := OperationCanceledError }

end Gui.DockWnd

/-! # Download dialog (`Gui/DownloadDialog.cpp`) -/

namespace Gui.Dialog

open Gui.DockWnd

/-- The progress bar of the dialog: whether it is shown, and the values last
handed to `setMaximum` and `setValue`. -/
structure QProgressBar where
  visible : Bool
  maximum : Int
  value : Int
deriving DecidableEq, Repr

/-- A call the dialog makes on its collaborators: the two message boxes, the
static `QFile::remove(fileName)`, the calls on the `QFile` object (`open`,
`close`, `remove`, `delete file`), `acc->get`, `reply->abort()` and
`QDialog::close()`. -/
inductive DialogCall where
  | question (text : QString)
  | information (text : QString)
  | removeExisting (fileName : QString)
  | fileOpen (fileName : QString)
  | fileClose (fileName : QString)
  | fileRemove (fileName : QString)
  | fileDelete (fileName : QString)
  | get (url : QUrl) (a : Nat)
  | abort (a : Nat)
  | close
deriving DecidableEq, Repr

/-- The class `DownloadDialog`: the label text, the progress bar, the state of the
three buttons, and the members `httpRequestAborted`, `file` (`none` is the
null pointer, `some name` the `QFile` object for that file name) and `reply`
(`none` is `NULL`, `some a` the reply at address `a`), with the calls made so
far, oldest first. -/
structure DownloadDialog where
  url : QUrl
  statusLabel : QString
  progressBar : QProgressBar
  downloadButtonEnabled : Bool
  cancelButtonVisible : Bool
  closeButtonVisible : Bool
  httpRequestAborted : Bool
  file : Option QString
  reply : Option Nat
  calls : List DialogCall
deriving DecidableEq, Repr

/-- What `downloadFile` learns from Qt, the file system and the user: the value of
`QFileInfo(url.path()).fileName()`, whether that file exists, whether the user
answers yes to the overwrite question, whether `file->open` succeeds, the text
of `file->errorString()`, and the address of the reply `acc->get` returns. -/
structure DownloadEnv where
  fileName : QString
  fileExists : Bool
  overwrite : Bool
  openOk : Bool
  errorString : QString
  reply : Nat
deriving DecidableEq, Repr

/-- What `httpRequestFinished` reads from the reply object: `error()` and
`errorString()`. -/
structure ReplyStatus where
  error : Nat
  errorString : QString
deriving DecidableEq, Repr

/-- The function `DownloadDialog::downloadFile()`. -/
def DownloadDialog.downloadFile (s : DownloadDialog) (env : DownloadEnv) : DownloadDialog :=
  let ask : DialogCall := DialogCall.question
    (QString.arg (tr ("There already exists a file called %1 in " ++
      "the current directory. Overwrite?")) env.fileName)
  if env.fileExists && !env.overwrite then { s with calls := s.calls ++ [ask] }
  else
    let calls1 :=
      if env.fileExists then s.calls ++ [ask, DialogCall.removeExisting env.fileName]
      else s.calls
    if !env.openOk then
      { s with
        file := none,
        calls := calls1 ++
          [DialogCall.fileOpen env.fileName,
           DialogCall.information
             (QString.arg (QString.arg (tr "Unable to save the file %1: %2.") env.fileName)
               env.errorString),
           DialogCall.fileDelete env.fileName] }
    else
      { s with
        file := some env.fileName,
        httpRequestAborted := false,
        reply := some env.reply,
        statusLabel := QString.arg (tr "Downloading %1.") env.fileName,
        downloadButtonEnabled := false,
        cancelButtonVisible := true,
        closeButtonVisible := false,
        calls := calls1 ++ [DialogCall.fileOpen env.fileName, DialogCall.get s.url env.reply] }

/-- The function `DownloadDialog::cancelDownload()`; `none` when `reply` is a null
pointer, which the function dereferences.  The `finished` signal that follows
`reply->abort()` is an `httpRequestFinished` step of its own. -/
def DownloadDialog.cancelDownload (s : DownloadDialog) : Option DownloadDialog :=
  match s.reply with
  | none => none
  | some a =>
    some { s with
      statusLabel := tr "Download canceled.",
      httpRequestAborted := true,
      calls := s.calls ++ [DialogCall.abort a, DialogCall.close] }

/-- The function `DownloadDialog::httpRequestFinished(QNetworkReply *rp)`;
`fileName` is the value of `QFileInfo(url.path()).fileName()` and `rp` the
object behind the pointer (`none` for a null pointer).  The result is `none`
when the function dereferences a null `file` or `rp`. -/
def DownloadDialog.httpRequestFinished (s : DownloadDialog) (fileName : QString)
    (rp : Option ReplyStatus) : Option DownloadDialog :=
  if s.httpRequestAborted then
    let s1 : DownloadDialog :=
      match s.file with
      | some f =>
        { s with
          file := none,
          calls := s.calls ++
            [DialogCall.fileClose f, DialogCall.fileRemove f, DialogCall.fileDelete f] }
      | none => s
    some { s1 with progressBar := { s1.progressBar with visible := false } }
  else
    match s.file, rp with
    | some f, some r =>
      let s1 : DownloadDialog :=
        { s with
          progressBar := { s.progressBar with visible := false },
          calls := s.calls ++ [DialogCall.fileClose f] }
      let s2 : DownloadDialog :=
        if r.error != NoError then
          { s1 with
            calls := s1.calls ++
              [DialogCall.fileRemove f,
               DialogCall.information (QString.arg (tr "Download failed: %1.") r.errorString)] }
        else
          { s1 with
            statusLabel := QString.arg (tr "Downloaded %1 to current directory.") fileName }
      some { s2 with
        downloadButtonEnabled := true,
        cancelButtonVisible := false,
        closeButtonVisible := true,
        file := none,
        calls := s2.calls ++ [DialogCall.fileDelete f] }
    | _, _ => none

/-- The function `DownloadDialog::updateDataReadProgress(int bytesRead, int totalBytes)`. -/
def DownloadDialog.updateDataReadProgress (s : DownloadDialog) (bytesRead totalBytes : Int) :
    DownloadDialog :=
  if s.httpRequestAborted then s
  else { s with progressBar := { s.progressBar with maximum := totalBytes, value := bytesRead } }

/-- A dialog for `http://host/files/manual.pdf` on which nothing has been done yet. -/
def idleDialog : DownloadDialog :=
  { url := "http://host/files/manual.pdf",
    statusLabel := "http://host/files/manual.pdf",
    progressBar := { visible := true, maximum := 100, value := -1 },
    downloadButtonEnabled := true,
    cancelButtonVisible := false,
    closeButtonVisible := true,
    httpRequestAborted := false,
    file := none,
    reply := none,
    calls := [] }

/-- The dialog `idleDialog` after `downloadFile`: `manual.pdf` did not exist, the
file was opened and the request is reply 7. -/
def runningDialog : DownloadDialog :=
  idleDialog.downloadFile
    { fileName := "manual.pdf", fileExists := false, overwrite := false, openOk := true,
      errorString := "", reply := 7 }

end Gui.Dialog

namespace Gui.DockWnd

/-! ## Registry lemmas -/

theorem QHash.contains_remove_self (h : TypeHash) (k : ReplyPtr) :
    QHash.contains (QHash.remove h k) k = false := by
  simp [QHash.contains, QHash.remove]

theorem QHash.remove_of_not_contains (h : TypeHash) (k : ReplyPtr)
    (hk : QHash.contains h k = false) : QHash.remove h k = h := by
  simp only [QHash.contains, List.any_eq_false] at hk
  simp only [QHash.remove, List.filter_eq_self]
  intro e he
  simpa using hk e he

theorem QHash.remove_cons (x : ReplyPtr) (v : Int) (t : TypeHash) (k : ReplyPtr) :
    QHash.remove ((x, v) :: t) k = if x = k then QHash.remove t k else (x, v) :: QHash.remove t k := by
  by_cases h : x = k <;> simp [QHash.remove, List.filter_cons, h]

theorem QHash.contains_cons (x : ReplyPtr) (v : Int) (t : TypeHash) (k : ReplyPtr) :
    QHash.contains ((x, v) :: t) k = (x == k || QHash.contains t k) := by
  simp [QHash.contains, List.any_cons]

theorem QHash.value_cons (x : ReplyPtr) (v : Int) (t : TypeHash) (k : ReplyPtr) :
    QHash.value ((x, v) :: t) k = if x = k then v else QHash.value t k := by
  by_cases h : x = k <;> simp [QHash.value, List.find?_cons, h]

theorem QHash.contains_remove_of_ne (h : TypeHash) (k k' : ReplyPtr) (hne : k' ≠ k) :
    QHash.contains (QHash.remove h k) k' = QHash.contains h k' := by
  induction h with
  | nil => rfl
  | cons e t ih =>
    obtain ⟨x, v⟩ := e
    rw [QHash.remove_cons, QHash.contains_cons]
    by_cases hx : x = k
    · have hk' : ¬ x = k' := fun h' => hne (h'.symm.trans hx)
      simp [hx, ih, Ne.symm hne]
    · simp [hx, QHash.contains_cons, ih]

theorem QHash.value_remove_of_ne (h : TypeHash) (k k' : ReplyPtr) (hne : k' ≠ k) :
    QHash.value (QHash.remove h k) k' = QHash.value h k' := by
  induction h with
  | nil => rfl
  | cons e t ih =>
    obtain ⟨x, v⟩ := e
    rw [QHash.remove_cons, QHash.value_cons]
    by_cases hx : x = k
    · simp [hx, ih, Ne.symm hne]
    · simp [hx, QHash.value_cons, ih]

theorem QHash.contains_insert_self (h : TypeHash) (k : ReplyPtr) (v : Int) :
    QHash.contains (QHash.insert h k v) k = true := by
  simp [QHash.insert, QHash.contains_cons]

theorem QHash.value_insert_self (h : TypeHash) (k : ReplyPtr) (v : Int) :
    QHash.value (QHash.insert h k v) k = v := by
  simp [QHash.insert, QHash.value_cons]

theorem QHash.contains_insert_of_ne (h : TypeHash) (k k' : ReplyPtr) (v : Int) (hne : k' ≠ k) :
    QHash.contains (QHash.insert h k v) k' = QHash.contains h k' := by
  simp [QHash.insert, QHash.contains_cons, Ne.symm hne, QHash.contains_remove_of_ne h k k' hne]

theorem QHash.value_insert_of_ne (h : TypeHash) (k k' : ReplyPtr) (v : Int) (hne : k' ≠ k) :
    QHash.value (QHash.insert h k v) k' = QHash.value h k' := by
  simp [QHash.insert, QHash.value_cons, Ne.symm hne, QHash.value_remove_of_ne h k k' hne]

theorem QHash.insert_of_not_contains (h : TypeHash) (k : ReplyPtr) (v : Int)
    (hk : QHash.contains h k = false) : QHash.insert h k v = (k, v) :: h := by
  simp [QHash.insert, QHash.remove_of_not_contains h k hk]

theorem QHash.remove_insert_of_not_contains (h : TypeHash) (k : ReplyPtr) (v : Int)
    (hk : QHash.contains h k = false) : QHash.remove (QHash.insert h k v) k = h := by
  rw [QHash.insert_of_not_contains h k v hk, QHash.remove_cons]
  simp [QHash.remove_of_not_contains h k hk]

theorem QHash.mem_keys_iff (h : TypeHash) (k : ReplyPtr) :
    k ∈ QHash.keys h ↔ QHash.contains h k = true := by
  simp [QHash.keys, QHash.contains]

theorem QHash.keys_remove (h : TypeHash) (k : ReplyPtr) :
    QHash.keys (QHash.remove h k) = (QHash.keys h).filter (fun x => x != k) := by
  induction h with
  | nil => rfl
  | cons e t ih =>
    obtain ⟨x, v⟩ := e
    rw [QHash.remove_cons]
    by_cases hx : x = k
    · simp only [QHash.keys] at ih ⊢
      simp [hx, ih]
    · simp only [QHash.keys] at ih ⊢
      simp [hx, ih]

theorem QHash.keysUnique_remove (h : TypeHash) (k : ReplyPtr) (hu : QHash.keysUnique h) :
    QHash.keysUnique (QHash.remove h k) := by
  unfold QHash.keysUnique
  rw [QHash.keys_remove]
  exact hu.filter _

theorem QHash.keysUnique_insert (h : TypeHash) (k : ReplyPtr) (v : Int)
    (hu : QHash.keysUnique h) : QHash.keysUnique (QHash.insert h k v) := by
  have hr := QHash.keysUnique_remove h k hu
  have hk : k ∉ QHash.keys (QHash.remove h k) := by
    rw [QHash.mem_keys_iff, QHash.contains_remove_self]
    simp
  unfold QHash.keysUnique at hr ⊢
  show (k :: QHash.keys (QHash.remove h k)).Nodup
  exact List.nodup_cons.mpr ⟨hk, hr⟩

theorem QHash.count_keys (h : TypeHash) (k : ReplyPtr) (hu : QHash.keysUnique h) :
    (QHash.keys h).count k = if QHash.contains h k then 1 else 0 := by
  have hcount : ∀ l : List ReplyPtr, l.Nodup → l.count k = if k ∈ l then 1 else 0 := by
    intro l
    induction l with
    | nil => intro _; simp
    | cons x t ih =>
      intro hl
      obtain ⟨hx, ht⟩ := List.nodup_cons.mp hl
      rw [List.count_cons, ih ht]
      by_cases hxk : x = k
      · subst hxk
        simp [hx]
      · have hkx : ¬ k = x := fun h' => hxk h'.symm
        simp [hxk, hkx]
  rw [hcount _ hu]
  by_cases hc : QHash.contains h k = true
  · rw [if_pos hc, if_pos ((QHash.mem_keys_iff h k).mpr hc)]
  · rw [if_neg hc, if_neg (fun hm => hc ((QHash.mem_keys_iff h k).mp hm))]

/-! ## The three outcomes of `onFinished` -/

theorem onFinished_of_not_contains (tb : TextBrowser) (rp : ReplyPtr) (reply : QNetworkReply)
    (h : QHash.contains tb.d.typeHash rp = false) : tb.onFinished rp reply = tb := by
  simp [TextBrowser.onFinished, h]

theorem onFinished_typeHash (tb : TextBrowser) (rp : ReplyPtr) (reply : QNetworkReply) :
    (tb.onFinished rp reply).d.typeHash = QHash.remove tb.d.typeHash rp := by
  unfold TextBrowser.onFinished
  by_cases hc : QHash.contains tb.d.typeHash rp = true
  · simp only [hc, Bool.not_true, Bool.false_eq_true, if_false]
    split
    · rfl
    · split <;> rfl
  · have hc' : QHash.contains tb.d.typeHash rp = false := by simpa using hc
    simp [hc', QHash.remove_of_not_contains _ _ hc']

theorem onFinished_failed (tb : TextBrowser) (rp : ReplyPtr) (reply : QNetworkReply)
    (hc : QHash.contains tb.d.typeHash rp = true)
    (he : rp = none ∨ reply.error ≠ NoError) :
    tb.onFinished rp reply =
      { tb with d := { tb.d with typeHash := QHash.remove tb.d.typeHash rp } } := by
  have hb : (rp.isNone || reply.error != NoError) = true := by
    rcases he with h | h
    · simp [h]
    · simp [h]
  simp only [TextBrowser.onFinished, hc, Bool.not_true, Bool.false_eq_true, if_false, hb, if_true]

theorem onFinished_source (tb : TextBrowser) (a : Nat) (reply : QNetworkReply)
    (hc : QHash.contains tb.d.typeHash (some a) = true)
    (hv : QHash.value tb.d.typeHash (some a) = -1)
    (he : reply.error = NoError) :
    tb.onFinished (some a) reply =
      { d := { tb.d with typeHash := QHash.remove tb.d.typeHash (some a),
                         source := reply.url, sourceData := reply.readAll },
        calls := tb.calls ++ [Call.setSource reply.url] } := by
  simp [TextBrowser.onFinished, hc, hv, he]

theorem onFinished_embedded (tb : TextBrowser) (a : Nat) (reply : QNetworkReply)
    (hc : QHash.contains tb.d.typeHash (some a) = true)
    (hv : QHash.value tb.d.typeHash (some a) ≠ -1)
    (he : reply.error = NoError) :
    tb.onFinished (some a) reply =
      { d := { tb.d with typeHash := QHash.remove tb.d.typeHash (some a) },
        calls := tb.calls ++
          [Call.addResource (QHash.value tb.d.typeHash (some a)) reply.url
             (QVariant.byteArray reply.readAll), Call.repaint] } := by
  simp [TextBrowser.onFinished, hc, hv, he]

theorem tagOf_eq_embedded (t kind : Int) (h : tagOf t = PurposeTag.Embedded kind) :
    t = kind ∧ t ≠ -1 := by
  unfold tagOf at h
  by_cases ht : t = -1
  · simp [ht] at h
  · have h2 : (t == -1) = false := by simpa using ht
    rw [h2] at h
    simp only [Bool.false_eq_true, if_false] at h
    exact ⟨PurposeTag.Embedded.inj h, ht⟩

/-! ## The placeholders of `loadResource` -/

theorem lowestEscape_errorMessage : lowestEscape errorMessage.data = some 1 := by decide

theorem lowestEscape_errorPage : lowestEscape errorPage.data = some 2 := by decide

set_option maxRecDepth 100000 in
theorem arg_errorMessage (u : QUrl) :
    QString.arg (tr errorMessage) u =
      "You tried to access the address " ++ u ++
      " which is currently unavailable. Please make sure that the URL exists and try reloading the page." := by
  unfold QString.arg tr
  rw [lowestEscape_errorMessage]
  apply String.ext
  simp only [String.data_append]
  rfl

set_option maxRecDepth 100000 in
theorem arg_errorPage (m : QString) :
    QString.arg errorPage m =
      "<!DOCTYPE HTML PUBLIC \"-//W3C//DTD HTML 4.01//EN\"><html><head><meta http-equiv=\"Content-Type\" content=\"text/html; charset=utf-16\"><title>Error</title></head><body><h1>Error</h1><div><p><strong>" ++
      m ++ "</strong></p></div></body></html>" := by
  unfold QString.arg
  rw [lowestEscape_errorPage]
  apply String.ext
  simp only [String.data_append]
  rfl

theorem decode_empty_xpm :
    Xpm.decode empty_xpm =
      some { width := 24, height := 24,
             pixels := List.replicate 24 (List.replicate 24 "#C0C0C0") } := by
  decide

theorem loadResource_other (tb : TextBrowser) (type : Int) (url : QUrl) (a : Nat)
    (hurl : url ≠ tb.d.source) :
    tb.loadResource type url a =
      (if type == ImageResource then QVariant.pixmap empty_xpm
       else if type == HtmlResource then
         QVariant.string (QString.arg errorPage (QString.arg (tr errorMessage) url))
       else QVariant.invalid,
       { tb with d := { tb.d with acc := tb.d.acc ++ [(a, url)],
                                  typeHash := QHash.insert tb.d.typeHash (some a) type } }) := by
  simp [TextBrowser.loadResource, TextBrowserPrivate.get, hurl]

theorem loadResource_self_reference_aux (tb : TextBrowser) (type : Int) (a : Nat) :
    tb.loadResource type tb.d.source a = (QVariant.byteArray tb.d.sourceData, tb) := by
  simp [TextBrowser.loadResource]

theorem loadResource_frame (tb : TextBrowser) (type : Int) (url : QUrl) (a : Nat) :
    (tb.loadResource type url a).2.currentDocument = tb.currentDocument ∧
    (tb.loadResource type url a).2.calls = tb.calls := by
  by_cases hurl : url = tb.d.source
  · subst hurl
    rw [loadResource_self_reference_aux]
    exact ⟨rfl, rfl⟩
  · rw [loadResource_other tb type url a hurl]
    exact ⟨rfl, rfl⟩

theorem loadResources_frame (reqs : List (Int × QUrl × Nat)) (tb : TextBrowser) :
    (tb.loadResources reqs).currentDocument = tb.currentDocument ∧
    (tb.loadResources reqs).calls = tb.calls := by
  induction reqs generalizing tb with
  | nil => exact ⟨rfl, rfl⟩
  | cons r rest ih =>
    obtain ⟨type, url, a⟩ := r
    have h1 := loadResource_frame tb type url a
    have h2 := ih (tb.loadResource type url a).2
    exact ⟨h2.1.trans h1.1, h2.2.trans h1.2⟩

/-! ## `setSource` and pairs of completions -/

theorem setSource_typeHash (q : QUrlOps) (tb : TextBrowser) (u : QUrl) (a : Nat) :
    (tb.setSource q u a).d.typeHash = QHash.insert tb.d.typeHash (some a) (-1) := rfl

theorem setSource_pending (q : QUrlOps) (tb : TextBrowser) (u : QUrl) (a : Nat) :
    QHash.contains (tb.setSource q u a).d.typeHash (some a) = true ∧
    QHash.value (tb.setSource q u a).d.typeHash (some a) = -1 := by
  rw [setSource_typeHash]
  exact ⟨QHash.contains_insert_self _ _ _, QHash.value_insert_self _ _ _⟩

theorem setSource_keeps_pending (q : QUrlOps) (tb : TextBrowser) (u : QUrl) (a b : Nat)
    (hne : b ≠ a) :
    QHash.contains (tb.setSource q u a).d.typeHash (some b) = QHash.contains tb.d.typeHash (some b) ∧
    QHash.value (tb.setSource q u a).d.typeHash (some b) = QHash.value tb.d.typeHash (some b) := by
  have hk : (some b : ReplyPtr) ≠ some a := fun h => hne (Option.some.inj h)
  rw [setSource_typeHash]
  exact ⟨QHash.contains_insert_of_ne _ _ _ _ hk, QHash.value_insert_of_ne _ _ _ _ hk⟩

theorem two_source_completions (s : TextBrowser) (a b : Nat) (ra rb : QNetworkReply)
    (hne : a ≠ b)
    (hb : QHash.contains s.d.typeHash (some b) = true)
    (hvb : QHash.value s.d.typeHash (some b) = -1)
    (heb : rb.error = NoError) :
    ((s.onFinished (some a) ra).onFinished (some b) rb).currentDocument = (rb.url, rb.readAll) := by
  have hk : (some b : ReplyPtr) ≠ some a := fun h => hne (Option.some.inj h).symm
  have hc : QHash.contains (s.onFinished (some a) ra).d.typeHash (some b) = true := by
    rw [onFinished_typeHash, QHash.contains_remove_of_ne _ _ _ hk]; exact hb
  have hv : QHash.value (s.onFinished (some a) ra).d.typeHash (some b) = -1 := by
    rw [onFinished_typeHash, QHash.value_remove_of_ne _ _ _ hk]; exact hvb
  rw [onFinished_source _ b rb hc hv heb]
  rfl

/-! ## Exactly-once completion -/

/-- C1: delivering `onFinished` for the same pointer a second time, with any reply
contents, gives the same browser (registry, current document, calls) as the
first delivery alone; and a completion for a pointer that is not in `typeHash`
leaves the browser as it is. -/
theorem onFinished_exactly_once (tb : TextBrowser) (rp : ReplyPtr) (r1 r2 : QNetworkReply) :
    (tb.onFinished rp r1).onFinished rp r2 = tb.onFinished rp r1 ∧
    (QHash.contains tb.d.typeHash rp = false → tb.onFinished rp r2 = tb) := by
  refine ⟨?_, onFinished_of_not_contains tb rp r2⟩
  apply onFinished_of_not_contains
  rw [onFinished_typeHash]
  exact QHash.contains_remove_self _ _

/-- C1, at a concrete browser: the fetch for `doc://home` completes with three
bytes and is then reported again as failed; a completion for the unknown
pointer 9 changes nothing. -/
theorem onFinished_exactly_once_witness :
    (shownHome.onFinished (some 1) (notFound "doc://home") = shownHome ∧
      shownHome.currentDocument = ("doc://home", [60, 104, 62]) ∧
      shownHome.calls = [Call.setSource "doc://home"] ∧
      shownHome.d.typeHash = []) ∧
    QHash.contains shownHome.d.typeHash (some 9) = false ∧
    shownHome.onFinished (some 9) (success "doc://other" [1]) = shownHome :=
  ⟨⟨(onFinished_exactly_once pendingHome (some 1) (success "doc://home" [60, 104, 62])
        (notFound "doc://home")).1, by decide, by decide, by decide⟩,
    by decide,
    (onFinished_exactly_once shownHome (some 9) (success "doc://other" [1])
        (success "doc://other" [1])).2 (by decide)⟩

/-! ## Navigation -/

/-- C2: `setSource u` makes no call on the rendering side and leaves the current
document as it is; it sends one request for `u` and stores the returned
pointer in `typeHash` with the value -1 (one more entry when the pointer was
not pending).  When that fetch then completes without error with the payload
`B`, the current document is `(u, B)`, the only call made over the two steps
is one `QTextBrowser::setSource(u)`, and `loadResource` answers the browser's
request for `u` with exactly `B`; the `loadResource` calls made while the
document is laid out change neither the current document nor the calls. -/
theorem setSource_then_success (q : QUrlOps) (tb : TextBrowser) (u : QUrl) (a : Nat)
    (B : QByteArray) :
    (tb.setSource q u a).calls = tb.calls ∧
    (tb.setSource q u a).currentDocument = tb.currentDocument ∧
    (tb.setSource q u a).d.acc = tb.d.acc ++ [(a, u)] ∧
    (tb.setSource q u a).d.typeHash = QHash.insert tb.d.typeHash (some a) (-1) ∧
    (QHash.contains tb.d.typeHash (some a) = false →
      (tb.setSource q u a).d.typeHash = (some a, -1) :: tb.d.typeHash ∧
      ((tb.setSource q u a).onFinished (some a) (success u B)).d.typeHash = tb.d.typeHash) ∧
    ((tb.setSource q u a).onFinished (some a) (success u B)).currentDocument = (u, B) ∧
    ((tb.setSource q u a).onFinished (some a) (success u B)).calls =
      tb.calls ++ [Call.setSource u] ∧
    (∀ (type : Int) (a' : Nat),
      ((tb.setSource q u a).onFinished (some a) (success u B)).loadResource type u a' =
        (QVariant.byteArray B, (tb.setSource q u a).onFinished (some a) (success u B))) ∧
    (∀ reqs : List (Int × QUrl × Nat),
      (((tb.setSource q u a).onFinished (some a) (success u B)).loadResources
          reqs).currentDocument = (u, B) ∧
      (((tb.setSource q u a).onFinished (some a) (success u B)).loadResources reqs).calls =
        tb.calls ++ [Call.setSource u]) := by
  obtain ⟨hc, hv⟩ := setSource_pending q tb u a
  have hfin := onFinished_source (tb.setSource q u a) a (success u B) hc hv rfl
  have hdoc : ((tb.setSource q u a).onFinished (some a) (success u B)).currentDocument =
      (u, B) := by rw [hfin]; rfl
  have hcalls : ((tb.setSource q u a).onFinished (some a) (success u B)).calls =
      tb.calls ++ [Call.setSource u] := by rw [hfin]; rfl
  refine ⟨rfl, rfl, rfl, rfl, ?_, hdoc, hcalls, ?_, ?_⟩
  · intro hfresh
    refine ⟨QHash.insert_of_not_contains _ _ _ hfresh, ?_⟩
    rw [onFinished_typeHash, setSource_typeHash]
    exact QHash.remove_insert_of_not_contains _ _ _ hfresh
  · intro type a'
    rw [hfin]
    simp [TextBrowser.loadResource, success]
  · intro reqs
    have hf := loadResources_frame reqs ((tb.setSource q u a).onFinished (some a) (success u B))
    exact ⟨hf.1.trans hdoc, hf.2.trans hcalls⟩

/-- C2, at a new browser: navigating to `doc://home` and completing the fetch
with three bytes. -/
theorem setSource_then_success_witness :
    QHash.contains TextBrowser.new.d.typeHash (some 1) = false ∧
    pendingHome.calls = [] ∧
    pendingHome.d.typeHash = [(some 1, -1)] ∧
    shownHome.d.typeHash = [] ∧
    shownHome.currentDocument = ("doc://home", [60, 104, 62]) ∧
    shownHome.calls = [] ++ [Call.setSource "doc://home"] :=
  have h := setSource_then_success qurl TextBrowser.new "doc://home" 1 [60, 104, 62]
  ⟨by decide, h.1, (h.2.2.2.2.1 (by decide)).1, (h.2.2.2.2.1 (by decide)).2,
    h.2.2.2.2.2.1, h.2.2.2.2.2.2.1⟩

/-- C3: `setSource` sends its request for the URL it was given, whatever
`isRelative` and `resolved` say: the resolved URL is computed and dropped. -/
theorem setSource_requests_literal_url (q : QUrlOps) (tb : TextBrowser) (url : QUrl) (a : Nat) :
    (tb.setSource q url a).d.acc = tb.d.acc ++ [(a, url)] := rfl

/-- C3, the failing input: while `http://host/dir/a.html` is shown, navigating to
the relative URL `b.html` requests `b.html`, not `http://host/dir/b.html`. -/
theorem setSource_relative_not_resolved :
    qurl.isRelative "b.html" = true ∧
    qurl.resolved shownPage.d.source "b.html" = "http://host/dir/b.html" ∧
    shownPage.setSourceDest qurl "b.html" = "http://host/dir/a.html" ∧
    (shownPage.setSource qurl "b.html" 1).d.acc = [(1, "b.html")] ∧
    (shownPage.setSource qurl "b.html" 1).d.typeHash = [(some 1, -1)] ∧
    (1, qurl.resolved shownPage.d.source "b.html") ∉ (shownPage.setSource qurl "b.html" 1).d.acc := by
  decide

/-- C4: when two navigations are pending (issued in either order, with distinct
reply pointers) and both fetches complete without error, the current document
is the URL and payload of the completion delivered last. -/
theorem last_completion_wins (q : QUrlOps) (tb : TextBrowser) (u1 u2 : QUrl) (a1 a2 : Nat)
    (B1 B2 : QByteArray) (hne : a1 ≠ a2) :
    ∀ s : TextBrowser,
      (s = (tb.setSource q u1 a1).setSource q u2 a2 ∨
       s = (tb.setSource q u2 a2).setSource q u1 a1) →
      ((s.onFinished (some a1) (success u1 B1)).onFinished (some a2)
          (success u2 B2)).currentDocument = (u2, B2) ∧
      ((s.onFinished (some a2) (success u2 B2)).onFinished (some a1)
          (success u1 B1)).currentDocument = (u1, B1) := by
  intro s hs
  have h12a := setSource_pending q tb u1 a1
  have h21a := setSource_pending q tb u2 a2
  have h12b := setSource_pending q (tb.setSource q u1 a1) u2 a2
  have h21b := setSource_pending q (tb.setSource q u2 a2) u1 a1
  have k12 := setSource_keeps_pending q (tb.setSource q u1 a1) u2 a2 a1 hne
  have k21 := setSource_keeps_pending q (tb.setSource q u2 a2) u1 a1 a2 (Ne.symm hne)
  rcases hs with rfl | rfl
  · exact ⟨two_source_completions _ a1 a2 _ (success u2 B2) hne h12b.1 h12b.2 rfl,
      two_source_completions _ a2 a1 _ (success u1 B1) (Ne.symm hne)
        (k12.1.trans h12a.1) (k12.2.trans h12a.2) rfl⟩
  · exact ⟨two_source_completions _ a1 a2 _ (success u2 B2) hne
        (k21.1.trans h21a.1) (k21.2.trans h21a.2) rfl,
      two_source_completions _ a2 a1 _ (success u1 B1) (Ne.symm hne) h21b.1 h21b.2 rfl⟩

/-- C4, at a new browser: `doc://a` (pointer 1) is requested before `doc://b`
(pointer 2); the completion order alone decides the current document. -/
theorem last_completion_wins_witness :
    (1 : Nat) ≠ 2 ∧
    ((((TextBrowser.new.setSource qurl "doc://a" 1).setSource qurl "doc://b" 2).onFinished
        (some 1) (success "doc://a" [1])).onFinished (some 2)
        (success "doc://b" [2])).currentDocument = ("doc://b", [2]) ∧
    ((((TextBrowser.new.setSource qurl "doc://a" 1).setSource qurl "doc://b" 2).onFinished
        (some 2) (success "doc://b" [2])).onFinished (some 1)
        (success "doc://a" [1])).currentDocument = ("doc://a", [1]) :=
  ⟨by decide,
    last_completion_wins qurl TextBrowser.new "doc://a" "doc://b" 1 2 [1] [2] (by decide)
      _ (Or.inl rfl)⟩

/-! ## Failed completions -/

/-- C5, as stated, fails: the pending navigation to `doc://missing` is registered
with the value -1, its fetch fails with `ContentNotFoundError`, and afterwards
the browser has made no call at all; only the registry entry is gone. -/
theorem failed_source_emits_nothing :
    QHash.contains pendingMissing.d.typeHash (some 1) = true ∧
    tagOf (QHash.value pendingMissing.d.typeHash (some 1)) = PurposeTag.Source ∧
    (notFound "doc://missing").error ≠ NoError ∧
    ¬ (∃ c : Call, c ∈ (pendingMissing.onFinished (some 1) (notFound "doc://missing")).calls) ∧
    pendingMissing.onFinished (some 1) (notFound "doc://missing") =
      { d := { acc := [(1, "doc://missing")], source := "", sourceData := [], typeHash := [] },
        calls := [] } := by
  refine ⟨by decide, by decide, by decide, ?_, by decide⟩
  have h : (pendingMissing.onFinished (some 1) (notFound "doc://missing")).calls = [] := by
    decide
  rw [h]
  simp

/-- C5, amended: a failed fetch of the primary document is silent.  For a pointer
stored in `typeHash` with the value -1 and a reply with an error, `onFinished`
makes no call (the list of calls is the same), leaves the current document and
the access manager as they are, and removes the pointer from `typeHash`. -/
theorem failed_source_is_silent (tb : TextBrowser) (a : Nat) (reply : QNetworkReply)
    (hc : QHash.contains tb.d.typeHash (some a) = true)
    (hv : tagOf (QHash.value tb.d.typeHash (some a)) = PurposeTag.Source)
    (he : reply.error ≠ NoError) :
    (tb.onFinished (some a) reply).calls = tb.calls ∧
    (tb.onFinished (some a) reply).currentDocument = tb.currentDocument ∧
    (tb.onFinished (some a) reply).d.acc = tb.d.acc ∧
    (tb.onFinished (some a) reply).d.typeHash = QHash.remove tb.d.typeHash (some a) ∧
    QHash.contains (tb.onFinished (some a) reply).d.typeHash (some a) = false := by
  have _ := hv
  rw [onFinished_failed tb (some a) reply hc (Or.inr he)]
  exact ⟨rfl, rfl, rfl, rfl, QHash.contains_remove_self _ _⟩

/-- C5 amended, at the pending navigation to `doc://missing`. -/
theorem failed_source_is_silent_witness :
    QHash.contains pendingMissing.d.typeHash (some 1) = true ∧
    tagOf (QHash.value pendingMissing.d.typeHash (some 1)) = PurposeTag.Source ∧
    (notFound "doc://missing").error ≠ NoError ∧
    (pendingMissing.onFinished (some 1) (notFound "doc://missing")).calls = pendingMissing.calls ∧
    (pendingMissing.onFinished (some 1) (notFound "doc://missing")).currentDocument =
      pendingMissing.currentDocument :=
  have h := failed_source_is_silent pendingMissing 1 (notFound "doc://missing")
    (by decide) (by decide) (by decide)
  ⟨by decide, by decide, by decide, h.1, h.2.1⟩

/-- C6: for a pointer stored in `typeHash` (with any value) and a reply with an
error, `onFinished` changes nothing but `typeHash`: the calls, the current
document and the access manager are the same, the pointer is removed, and
every other pointer keeps its entry. -/
theorem failed_completion_frame (tb : TextBrowser) (a : Nat) (reply : QNetworkReply)
    (hc : QHash.contains tb.d.typeHash (some a) = true)
    (he : reply.error ≠ NoError) :
    tb.onFinished (some a) reply =
      { tb with d := { tb.d with typeHash := QHash.remove tb.d.typeHash (some a) } } ∧
    (tb.onFinished (some a) reply).calls = tb.calls ∧
    (tb.onFinished (some a) reply).currentDocument = tb.currentDocument ∧
    QHash.contains (tb.onFinished (some a) reply).d.typeHash (some a) = false ∧
    (∀ k : ReplyPtr, k ≠ some a →
      QHash.contains (tb.onFinished (some a) reply).d.typeHash k = QHash.contains tb.d.typeHash k ∧
      QHash.value (tb.onFinished (some a) reply).d.typeHash k = QHash.value tb.d.typeHash k) := by
  have h := onFinished_failed tb (some a) reply hc (Or.inr he)
  refine ⟨h, ?_, ?_, ?_, ?_⟩
  · rw [h]
  · rw [h]; rfl
  · rw [h]; exact QHash.contains_remove_self _ _
  · intro k hk
    rw [h]
    exact ⟨QHash.contains_remove_of_ne _ _ _ hk, QHash.value_remove_of_ne _ _ _ hk⟩

/-- C6, at the browser that shows `doc://home` and waits for `doc://logo.png`:
the image fetch fails. -/
theorem failed_completion_frame_witness :
    QHash.contains pendingLogo.d.typeHash (some 2) = true ∧
    (notFound "doc://logo.png").error ≠ NoError ∧
    pendingLogo.onFinished (some 2) (notFound "doc://logo.png") =
      { pendingLogo with d := { pendingLogo.d with
          typeHash := QHash.remove pendingLogo.d.typeHash (some 2) } } ∧
    (pendingLogo.onFinished (some 2) (notFound "doc://logo.png")).calls =
      [Call.setSource "doc://home"] ∧
    (pendingLogo.onFinished (some 2) (notFound "doc://logo.png")).currentDocument =
      ("doc://home", [60, 104, 62]) :=
  have h := failed_completion_frame pendingLogo 2 (notFound "doc://logo.png")
    (by decide) (by decide)
  ⟨by decide, by decide, h.1, h.2.1.trans (by decide), h.2.2.1.trans (by decide)⟩

/-! ## `loadResource` -/

/-- C7: `loadResource` for the URL of the current document returns the bytes of
the current document, and the browser is unchanged: no request is sent and
`typeHash` is the same. -/
theorem loadResource_self_reference (tb : TextBrowser) (type : Int) (a : Nat) :
    tb.loadResource type tb.d.source a = (QVariant.byteArray tb.d.sourceData, tb) ∧
    (tb.loadResource type tb.d.source a).2.d.typeHash = tb.d.typeHash ∧
    (tb.loadResource type tb.d.source a).2.d.acc = tb.d.acc := by
  rw [loadResource_self_reference_aux tb type a]
  exact ⟨rfl, rfl, rfl⟩

/-- C8: for a URL other than the current document's and a resource type other
than -1, `loadResource` sends exactly one request, for `url`, stores the
returned pointer in `typeHash` under that type, and leaves the current
document and the calls as they are.  The result is the pixmap `empty_xpm` (24
by 24 pixels, all `#C0C0C0`) for the image type, the error page with `url` in
its text for the markup type, and the invalid variant for any other type. -/
theorem loadResource_issues_fetch (tb : TextBrowser) (type : Int) (url : QUrl) (a : Nat)
    (hurl : url ≠ tb.d.source) (hkind : type ≠ -1) :
    (tb.loadResource type url a).2.d.acc = tb.d.acc ++ [(a, url)] ∧
    (tb.loadResource type url a).2.d.typeHash = QHash.insert tb.d.typeHash (some a) type ∧
    QHash.contains (tb.loadResource type url a).2.d.typeHash (some a) = true ∧
    tagOf (QHash.value (tb.loadResource type url a).2.d.typeHash (some a)) =
      PurposeTag.Embedded type ∧
    (tb.loadResource type url a).2.currentDocument = tb.currentDocument ∧
    (tb.loadResource type url a).2.calls = tb.calls ∧
    (type = ImageResource → (tb.loadResource type url a).1 = QVariant.pixmap empty_xpm) ∧
    Xpm.decode empty_xpm =
      some { width := 24, height := 24,
             pixels := List.replicate 24 (List.replicate 24 "#C0C0C0") } ∧
    (type = HtmlResource → (tb.loadResource type url a).1 = QVariant.string
      ("<!DOCTYPE HTML PUBLIC \"-//W3C//DTD HTML 4.01//EN\"><html><head><meta http-equiv=\"Content-Type\" content=\"text/html; charset=utf-16\"><title>Error</title></head><body><h1>Error</h1><div><p><strong>" ++
       ("You tried to access the address " ++ url ++
        " which is currently unavailable. Please make sure that the URL exists and try reloading the page.") ++
       "</strong></p></div></body></html>")) ∧
    (type ≠ ImageResource → type ≠ HtmlResource →
      (tb.loadResource type url a).1 = QVariant.invalid) := by
  rw [loadResource_other tb type url a hurl]
  refine ⟨rfl, rfl, QHash.contains_insert_self _ _ _, ?_, rfl, rfl, ?_, decode_empty_xpm, ?_, ?_⟩
  · show tagOf (QHash.value (QHash.insert tb.d.typeHash (some a) type) (some a)) = _
    rw [QHash.value_insert_self]
    simp [tagOf, hkind]
  · intro h
    simp [h]
  · intro h
    have hne : (HtmlResource == ImageResource) = false := by decide
    simp only [h, hne, Bool.false_eq_true, if_false, beq_self_eq_true, if_true]
    rw [arg_errorMessage, arg_errorPage]
  · intro h1 h2
    simp [h1, h2]

/-- C8, at the browser that shows `doc://home`: the image `doc://logo.png` is
requested with reply pointer 2. -/
theorem loadResource_issues_fetch_witness :
    ("doc://logo.png" : QUrl) ≠ shownHome.d.source ∧ ImageResource ≠ -1 ∧
    (shownHome.loadResource ImageResource "doc://logo.png" 2).2.d.acc =
      shownHome.d.acc ++ [(2, "doc://logo.png")] ∧
    (shownHome.loadResource ImageResource "doc://logo.png" 2).2.d.typeHash =
      QHash.insert shownHome.d.typeHash (some 2) ImageResource ∧
    (shownHome.loadResource ImageResource "doc://logo.png" 2).1 = QVariant.pixmap empty_xpm :=
  have h := loadResource_issues_fetch shownHome ImageResource "doc://logo.png" 2
    (by decide) (by decide)
  ⟨by decide, by decide, h.1, h.2.1, h.2.2.2.2.2.2.1 rfl⟩

/-- C9, as stated, fails: for the style-sheet type (3) and a URL other than the
current document's, `loadResource` returns the invalid (default-constructed)
variant, both while `doc://home` is shown and before any document is loaded. -/
theorem loadResource_returns_invalid :
    (shownHome.loadResource 3 "doc://style.css" 2).1 = QVariant.invalid ∧
    (shownHome.loadResource 3 "doc://style.css" 2).1.isValid = false ∧
    (TextBrowser.new.loadResource 3 "doc://style.css" 1).1.isValid = false := by
  decide

/-- C9, amended: `loadResource` always returns a variant, and that variant is
valid exactly when the URL is the current document's (the held bytes, also
before any document is loaded), or the type is the image type or the markup
type; for any other type and URL it is the invalid variant. -/
theorem loadResource_isValid (tb : TextBrowser) (type : Int) (url : QUrl) (a : Nat) :
    (tb.loadResource type url a).1.isValid =
      (url == tb.d.source || type == ImageResource || type == HtmlResource) ∧
    ((tb.loadResource type url a).1.isValid = false →
      (tb.loadResource type url a).1 = QVariant.invalid) := by
  by_cases hurl : url = tb.d.source
  · subst hurl
    rw [(loadResource_self_reference_aux tb type a)]
    simp [QVariant.isValid]
  · rw [loadResource_other tb type url a hurl]
    have hu : (url == tb.d.source) = false := by simpa using hurl
    by_cases h1 : type = ImageResource
    · simp [h1, hu, QVariant.isValid]
    · by_cases h2 : type = HtmlResource
      · have hne : (HtmlResource == ImageResource) = false := by decide
        simp [h2, hu, hne, QVariant.isValid]
      · simp [h1, h2, hu, QVariant.isValid]

/-! ## Successful embedded completion -/

/-- C10: for a pointer stored in `typeHash` with a resource type `kind` (a value
other than -1) and a reply for the URL `u` without error and with payload
`B`, `onFinished` calls `addResource(kind, u, B)` and then `repaint()` once,
and nothing else (in particular not `QTextBrowser::setSource`); the current
document and the access manager are the same and the pointer is removed from
`typeHash`. -/
theorem embedded_success (tb : TextBrowser) (a : Nat) (kind : Int) (u : QUrl) (B : QByteArray)
    (hc : QHash.contains tb.d.typeHash (some a) = true)
    (htag : tagOf (QHash.value tb.d.typeHash (some a)) = PurposeTag.Embedded kind) :
    (tb.onFinished (some a) (success u B)).calls =
      tb.calls ++ [Call.addResource kind u (QVariant.byteArray B), Call.repaint] ∧
    (tb.onFinished (some a) (success u B)).currentDocument = tb.currentDocument ∧
    (tb.onFinished (some a) (success u B)).d.acc = tb.d.acc ∧
    (tb.onFinished (some a) (success u B)).d.typeHash = QHash.remove tb.d.typeHash (some a) ∧
    QHash.contains (tb.onFinished (some a) (success u B)).d.typeHash (some a) = false := by
  obtain ⟨hk, hne⟩ := tagOf_eq_embedded _ _ htag
  rw [onFinished_embedded tb a (success u B) hc hne rfl, hk]
  exact ⟨rfl, rfl, rfl, rfl, QHash.contains_remove_self _ _⟩

/-- C10, at the browser that shows `doc://home` and waits for `doc://logo.png`:
the image arrives with the bytes 137, 80. -/
theorem embedded_success_witness :
    QHash.contains pendingLogo.d.typeHash (some 2) = true ∧
    tagOf (QHash.value pendingLogo.d.typeHash (some 2)) = PurposeTag.Embedded ImageResource ∧
    (pendingLogo.onFinished (some 2) (success "doc://logo.png" [137, 80])).calls =
      [Call.setSource "doc://home",
       Call.addResource 2 "doc://logo.png" (QVariant.byteArray [137, 80]), Call.repaint] ∧
    (pendingLogo.onFinished (some 2) (success "doc://logo.png" [137, 80])).currentDocument =
      ("doc://home", [60, 104, 62]) ∧
    (pendingLogo.onFinished (some 2) (success "doc://logo.png" [137, 80])).d.typeHash = [] :=
  have h := embedded_success pendingLogo 2 ImageResource "doc://logo.png" [137, 80]
    (by decide) (by decide)
  ⟨by decide, by decide, h.1.trans (by decide), h.2.1.trans (by decide),
    h.2.2.2.1.trans (by decide)⟩

/-! ## The registry invariant along the operations -/

theorem setSource_keysUnique (q : QUrlOps) (tb : TextBrowser) (u : QUrl) (a : Nat)
    (hu : QHash.keysUnique tb.d.typeHash) :
    QHash.keysUnique (tb.setSource q u a).d.typeHash :=
  QHash.keysUnique_insert _ _ _ hu

theorem loadResource_keysUnique (tb : TextBrowser) (type : Int) (url : QUrl) (a : Nat)
    (hu : QHash.keysUnique tb.d.typeHash) :
    QHash.keysUnique (tb.loadResource type url a).2.d.typeHash := by
  by_cases hurl : url = tb.d.source
  · subst hurl
    rw [loadResource_self_reference_aux]
    exact hu
  · rw [loadResource_other tb type url a hurl]
    exact QHash.keysUnique_insert _ _ _ hu

theorem onFinished_keysUnique (tb : TextBrowser) (rp : ReplyPtr) (reply : QNetworkReply)
    (hu : QHash.keysUnique tb.d.typeHash) :
    QHash.keysUnique (tb.onFinished rp reply).d.typeHash := by
  rw [onFinished_typeHash]
  exact QHash.keysUnique_remove _ _ hu

/-! ## Teardown -/

theorem setSource_no_null (q : QUrlOps) (tb : TextBrowser) (u : QUrl) (a : Nat)
    (hn : QHash.contains tb.d.typeHash none = false) :
    QHash.contains (tb.setSource q u a).d.typeHash none = false := by
  rw [setSource_typeHash, QHash.contains_insert_of_ne _ _ _ _ (by simp)]
  exact hn

theorem loadResource_no_null (tb : TextBrowser) (type : Int) (url : QUrl) (a : Nat)
    (hn : QHash.contains tb.d.typeHash none = false) :
    QHash.contains (tb.loadResource type url a).2.d.typeHash none = false := by
  by_cases hurl : url = tb.d.source
  · subst hurl
    rw [loadResource_self_reference_aux]
    exact hn
  · rw [loadResource_other tb type url a hurl]
    show QHash.contains (QHash.insert tb.d.typeHash (some a) type) none = false
    rw [QHash.contains_insert_of_ne _ _ _ _ (by simp)]
    exact hn

theorem onFinished_no_null (tb : TextBrowser) (rp : ReplyPtr) (reply : QNetworkReply)
    (hn : QHash.contains tb.d.typeHash none = false) :
    QHash.contains (tb.onFinished rp reply).d.typeHash none = false := by
  rw [onFinished_typeHash]
  by_cases hrp : rp = none
  · rw [hrp]; exact QHash.contains_remove_self _ _
  · rw [QHash.contains_remove_of_ne _ _ _ (fun h => hrp h.symm)]
    exact hn

end Gui.DockWnd

namespace Gui.Dialog

open Gui.DockWnd

/-! ## Cancelling a download -/

/-- C12: in a dialog whose file is open and whose request has been issued,
`cancelDownload` sets the label to the text of `Download canceled.`, sets
`httpRequestAborted`, aborts the reply and closes the dialog.  The completion
that follows, whatever the reply reports, closes and removes the file, deletes
the `QFile` object and clears `file`; these three are the only calls it makes
(no message box), and the label keeps the canceled text.  Progress
notifications after the abort, before or after the completion, leave the
dialog as it is. -/
theorem cancelDownload_discards (s : DownloadDialog) (f : QString) (a : Nat)
    (hf : s.file = some f) (hr : s.reply = some a) :
    ∃ s1 : DownloadDialog,
      s.cancelDownload = some s1 ∧
      s1.statusLabel = tr "Download canceled." ∧
      s1.httpRequestAborted = true ∧
      s1.calls = s.calls ++ [DialogCall.abort a, DialogCall.close] ∧
      (∀ bytesRead totalBytes : Int, s1.updateDataReadProgress bytesRead totalBytes = s1) ∧
      ∀ (fileName : QString) (rp : Option ReplyStatus),
        ∃ s2 : DownloadDialog,
          s1.httpRequestFinished fileName rp = some s2 ∧
          s2.file = none ∧
          s2.calls = s1.calls ++
            [DialogCall.fileClose f, DialogCall.fileRemove f, DialogCall.fileDelete f] ∧
          s2.statusLabel = tr "Download canceled." ∧
          s2.httpRequestAborted = true ∧
          (∀ bytesRead totalBytes : Int, s2.updateDataReadProgress bytesRead totalBytes = s2) := by
  refine ⟨{ s with
      statusLabel := tr "Download canceled.",
      httpRequestAborted := true,
      calls := s.calls ++ [DialogCall.abort a, DialogCall.close] }, ?_, rfl, rfl, rfl, ?_, ?_⟩
  · simp [DownloadDialog.cancelDownload, hr]
  · intro b t
    simp [DownloadDialog.updateDataReadProgress]
  · intro fileName rp
    refine ⟨{ s with
        statusLabel := tr "Download canceled.",
        httpRequestAborted := true,
        file := none,
        progressBar := { s.progressBar with visible := false },
        calls := (s.calls ++ [DialogCall.abort a, DialogCall.close]) ++
          [DialogCall.fileClose f, DialogCall.fileRemove f, DialogCall.fileDelete f] },
      ?_, rfl, rfl, rfl, rfl, ?_⟩
    · simp [DownloadDialog.httpRequestFinished, hf]
    · intro b t
      simp [DownloadDialog.updateDataReadProgress]

/-- C12, at the running download of `manual.pdf` (reply 7): after the cancel the
label reads `Download canceled.`, and after the completion with
`ContentNotFoundError` the file is gone and no message box was shown. -/
theorem cancelDownload_discards_witness :
    runningDialog.file = some "manual.pdf" ∧ runningDialog.reply = some 7 ∧
    ∃ s1 s2 : DownloadDialog,
      runningDialog.cancelDownload = some s1 ∧
      s1.statusLabel = "Download canceled." ∧
      s1.httpRequestFinished "manual.pdf" (some { error := 203, errorString := "not found" }) =
        some s2 ∧
      s2.file = none ∧
      s2.statusLabel = "Download canceled." ∧
      s2.calls = s1.calls ++
        [DialogCall.fileClose "manual.pdf", DialogCall.fileRemove "manual.pdf",
         DialogCall.fileDelete "manual.pdf"] := by
  obtain ⟨s1, h1, h2, _, _, _, h6⟩ :=
    cancelDownload_discards runningDialog "manual.pdf" 7 (by decide) (by decide)
  obtain ⟨s2, k1, k2, k3, k4, _, _⟩ :=
    h6 "manual.pdf" (some { error := 203, errorString := "not found" })
  exact ⟨by decide, by decide, s1, s2, h1, h2, k1, k2, k4, k3⟩

end Gui.Dialog
